import Mathlib

/-!
Shallow embedding of the `ros-interop` client (`src/interop/client.py`) and
serialization layer (`src/interop/serializers.py`), with theorems checking the
natural-language specification against the code.

Modelling conventions:
* Python floats are modelled as exact rationals; the spec calls all numeric
  conversions exact rational formulas.
* External collaborators are parameters: the geodetic-to-planar projection
  `utm.from_latlon` is a function argument `utmProj`, the clock
  `rospy.get_rostime()` is an argument `now`, and the shutdown flag
  `rospy.is_shutdown()` is a Boolean-valued function of the loop iteration.
* Fallible Python code is embedded in the `Except` monad over `PyErr`.
* JSON values are the mutual inductive `JValue`; Python dicts are association
  lists with unique keys as produced by JSON parsing.
-/

/-! ### Wire values (JSON) -/

mutual

inductive JValue where
  | null
  | bool (b : Bool)
  | num (q : ℚ)
  | str (s : String)
  | arr (xs : JList)
  | obj (fields : JObj)
deriving DecidableEq

inductive JList where
  | nil
  | cons (hd : JValue) (tl : JList)
deriving DecidableEq

inductive JObj where
  | nil
  | cons (k : String) (v : JValue) (tl : JObj)
deriving DecidableEq

end

def JList.toList : JList → List JValue
  | .nil => []
  | .cons hd tl => hd :: tl.toList

def JList.ofList : List JValue → JList
  | [] => .nil
  | x :: xs => .cons x (JList.ofList xs)

def JObj.find? : JObj → String → Option JValue
  | .nil, _ => none
  | .cons k v tl, key => if k = key then some v else tl.find? key

def JObj.ofList : List (String × JValue) → JObj
  | [] => .nil
  | p :: ps => .cons p.1 p.2 (JObj.ofList ps)

def jarr (xs : List JValue) : JValue := .arr (JList.ofList xs)

def jobj (ps : List (String × JValue)) : JValue := .obj (JObj.ofList ps)

/-! ### Python-level errors and primitive operations -/

inductive PyErr where
  | keyError (k : String)
  | typeError
  | valueError
  | lookupError
  | httpError (status : Nat)
deriving DecidableEq

abbrev Py (α : Type) := Except PyErr α

/-- Python `data[k]` on a JSON value: KeyError when the key is absent from a
dict, TypeError when subscripting a non-dict. -/
def getItem (v : JValue) (k : String) : Py JValue :=
  match v with
  | .obj fs =>
    match fs.find? k with
    | some x => .ok x
    | none => .error (.keyError k)
  | _ => .error .typeError

/-- Python `k in data` membership test (dict case); non-dicts have no
string keys. -/
def jget? (v : JValue) (k : String) : Option JValue :=
  match v with
  | .obj fs => fs.find? k
  | _ => none

/-- Python `for x in v` over a JSON array. -/
def asArray : JValue → Py (List JValue)
  | .arr xs => .ok xs.toList
  | _ => .error .typeError

/-- Python `float(v)`: numbers pass through, booleans coerce to 0/1.
`float` of a numeric string can succeed in Python; that corner is modelled
as an error since no code path under verification exercises it. -/
def pyFloat : JValue → Py ℚ
  | .num q => .ok q
  | .bool b => .ok (if b then 1 else 0)
  | _ => .error .valueError

/-- Python `int(v)`: truncation toward zero on numbers. -/
def pyInt : JValue → Py Int
  | .num q => .ok (if 0 ≤ q then ⌊q⌋ else ⌈q⌉)
  | .bool b => .ok (if b then 1 else 0)
  | _ => .error .valueError

/-- Python `str(v)` restricted to string inputs; `str` of non-strings is
total in Python but no verified code path applies it to non-strings. -/
def pyStrCast : JValue → Py String
  | .str s => .ok s
  | _ => .error .typeError

/-- Python truthiness: `if v:`. -/
def truthy : JValue → Bool
  | .null => false
  | .bool b => b
  | .num q => decide (q ≠ 0)
  | .str s => decide (s ≠ "")
  | .arr xs => decide (xs ≠ JList.nil)
  | .obj fs => decide (fs ≠ JObj.nil)

/-- Effectful map modelling a Python for-loop that builds a list, failing at
the first raising iteration. -/
def mapE {α β : Type} (f : α → Py β) : List α → Py (List β)
  | [] => .ok []
  | x :: xs => do
    let y ← f x
    let ys ← mapE f xs
    pure (y :: ys)

/-! ### Unit conversions (serializers.py lines 21-42) -/

/-- meters_to_feet: `float(m) / 0.3048`. -/
def meters_to_feet (m : ℚ) : ℚ := m / 0.3048

/-- feet_to_meters: `float(ft) * 0.3048`. -/
def feet_to_meters (ft : ℚ) : ℚ := ft * 0.3048

/-! ### Timestamp conversion (serializers.py lines 45-69)

`dateutil.parser.parse` is an external library; its result is modelled as the
wall-clock reading of the string in microseconds since the epoch together with
the explicit UTC offset (in seconds) when the string carries one. -/

structure ParsedDatetime where
  localMicros : Int
  utcoffset : Option Int
deriving DecidableEq

structure RosTime where
  secs : Int
  nsecs : Int
deriving DecidableEq

/-- iso8601_to_rostime. The source guard `if not t.utcoffset():` treats both a
missing offset (None) and an explicit zero offset (a falsy timedelta) as
"assume UTC"; `int(dt.total_seconds())` truncates toward zero, and
`dt.microseconds` is the nonnegative normalized microsecond remainder. -/
def iso8601_to_rostime (t : ParsedDatetime) : RosTime :=
  let off : Int :=
    match t.utcoffset with
    | none => 0
    | some o => if o = 0 then 0 else o
  let dtMicros : Int := t.localMicros - off * 1000000
  ⟨Int.tdiv dtMicros 1000000, dtMicros % 1000000 * 1000⟩

/-- Leap-year test of the proleptic Gregorian calendar. -/
def isLeap (y : Nat) : Bool := y % 4 = 0 && (y % 100 ≠ 0 || y % 400 = 0)

def daysInYear (y : Nat) : Nat := if isLeap y then 366 else 365

/-- Days from 1970-01-01 to the start of year `1970 + n`. -/
def daysFromEpochToYear : Nat → Nat
  | 0 => 0
  | n + 1 => daysFromEpochToYear n + daysInYear (1970 + n)

/-- Days in the year strictly before month `m`. -/
def daysBeforeMonth (leap : Bool) (m : Nat) : Nat :=
  let base :=
    match m with
    | 1 => 0 | 2 => 31 | 3 => 59 | 4 => 90 | 5 => 120 | 6 => 151
    | 7 => 181 | 8 => 212 | 9 => 243 | 10 => 273 | 11 => 304 | _ => 334
  if leap ∧ 3 ≤ m then base + 1 else base

/-- Wall-clock microseconds since the epoch of a civil datetime at or after
1970; this models the datetime produced by parsing a well-formed ISO 8601
string. -/
def epochMicros (y m d h mi s micro : Nat) : Int :=
  (((daysFromEpochToYear (y - 1970) + daysBeforeMonth (isLeap y) m + (d - 1)) * 86400
      + h * 3600 + mi * 60 + s : Nat) : Int) * 1000000 + micro

/-! ### The authenticated request loop (client.py lines 44-87)

`InteroperabilityClient.__request` sends the request, re-logins and retries on
FORBIDDEN, raises on any other 4xx/5xx, and exits its while-loop either by
`break` or because `rospy.is_shutdown()` became true; in both cases it executes
`return response`.  The server is an oracle from the attempt index to a status
code (the method, URI and body are fixed for the whole call, so each retry
resends the same request); `shutdown j` is the value of `rospy.is_shutdown()`
at the top of iteration `j`.  `logins` counts calls to `self.login()` and
`sessions` counts fresh `requests.Session()` objects created by the reauth
path.  The loop is potentially unbounded, so the model is fuel-indexed and
`none` means the fuel ran out before the loop finished. -/

def FORBIDDEN : Nat := 403

inductive ReqOutcome where
  | returned (status : Nat) (logins : Nat) (sessions : Nat)
  | httpError (status : Nat) (logins : Nat) (sessions : Nat)
  | unboundResponse
deriving DecidableEq

def requestStep (sh : Nat → Bool) (sv : Nat → Nat) :
    Nat → Nat → Nat → Nat → Option Nat → Option ReqOutcome
  | 0, _, _, _, _ => none
  | fuel + 1, i, logins, sessions, last =>
    if sh i then
      some (match last with
            | none => ReqOutcome.unboundResponse
            | some s => ReqOutcome.returned s logins sessions)
    else
      if sv i = FORBIDDEN then
        requestStep sh sv fuel (i + 1) (logins + 1) (sessions + 1) (some (sv i))
      else if 400 ≤ sv i ∧ sv i < 600 then
        some (ReqOutcome.httpError (sv i) logins sessions)
      else
        some (ReqOutcome.returned (sv i) logins sessions)

def noShutdown : Nat → Bool := fun _ => false

def shutdownAfterOne : Nat → Bool := fun i => decide (1 ≤ i)

def stubForbiddenThenOk : Nat → Nat := fun i => if i = 0 then FORBIDDEN else 200

def alwaysForbidden : Nat → Nat := fun _ => FORBIDDEN

def alwaysOk : Nat → Nat := fun _ => 200

/-! ### ROS message embeddings

Only the fields the deserializers actually populate are carried.  A `Header`
holds the caller-supplied frame id and the `rospy.get_rostime()` stamp. -/

structure Header where
  stamp : ℚ
  frame_id : String
deriving DecidableEq

structure Point where
  x : ℚ
  y : ℚ
  z : ℚ
deriving DecidableEq

structure ColorRGBA where
  r : ℚ
  g : ℚ
  b : ℚ
  a : ℚ
deriving DecidableEq

inductive MarkerType where
  | points
  | sphere
  | cylinder
deriving DecidableEq

structure Marker where
  header : Header
  ns : String
  type : MarkerType
  lifetime : ℚ
  color : ColorRGBA
  scale : Point
  position : Point
  orientation_w : ℚ
  points : List Point
deriving DecidableEq

structure PolygonStamped where
  header : Header
  points : List Point
deriving DecidableEq

structure PointStamped where
  header : Header
  point : Point
deriving DecidableEq

structure FlyZone where
  zone : PolygonStamped
  max_alt : ℚ
  min_alt : ℚ
deriving DecidableEq

structure FlyZoneArray where
  flyzones : List FlyZone
deriving DecidableEq

/-- Default-constructed `ColorRGBA()`. -/
def ColorRGBA.zero : ColorRGBA := ⟨0, 0, 0, 0⟩

/-! ### MissionDeserializer (serializers.py lines 72-304) -/

/-- MissionDeserializer.__get_flyzone: per zone, convert the two altitudes from
feet, then project each boundary point; the points keep `z = 0`. -/
def MissionDeserializer.get_flyzone (utmProj : ℚ → ℚ → ℚ × ℚ) (now : ℚ)
    (data : List JValue) (frame : String) : Py FlyZoneArray := do
  let header : Header := ⟨now, frame⟩
  let zones ← mapE (fun zone => do
    let maxAltFt ← pyFloat (← getItem zone "altitude_msl_max")
    let minAltFt ← pyFloat (← getItem zone "altitude_msl_min")
    let bpts ← asArray (← getItem zone "boundary_pts")
    let pts ← mapE (fun w => do
      let la ← pyFloat (← getItem w "latitude")
      let lo ← pyFloat (← getItem w "longitude")
      let en := utmProj la lo
      pure (⟨en.1, en.2, 0⟩ : Point)) bpts
    pure (⟨⟨header, pts⟩, feet_to_meters maxAltFt, feet_to_meters minAltFt⟩ : FlyZone)) data
  pure ⟨zones⟩

/-- MissionDeserializer.__get_waypoints: a POINTS marker with zero lifetime,
unit orientation w, 0.1 scale, and one projected point per waypoint with the
altitude converted from feet as z. -/
def MissionDeserializer.get_waypoints (utmProj : ℚ → ℚ → ℚ × ℚ) (now : ℚ)
    (data : List JValue) (frame : String) : Py Marker := do
  let header : Header := ⟨now, frame⟩
  let pts ← mapE (fun point => do
    let la ← pyFloat (← getItem point "latitude")
    let lo ← pyFloat (← getItem point "longitude")
    let altitude := feet_to_meters (← pyFloat (← getItem point "altitude_msl"))
    let en := utmProj la lo
    pure (⟨en.1, en.2, altitude⟩ : Point)) data
  pure ⟨header, "waypoints", .points, 0, ColorRGBA.zero, ⟨0.1, 0.1, 0.1⟩, ⟨0, 0, 0⟩, 1, pts⟩

/-- MissionDeserializer.__get_search_grid. -/
def MissionDeserializer.get_search_grid (utmProj : ℚ → ℚ → ℚ × ℚ) (now : ℚ)
    (data : List JValue) (frame : String) : Py PolygonStamped := do
  let header : Header := ⟨now, frame⟩
  let pts ← mapE (fun point => do
    let la ← pyFloat (← getItem point "latitude")
    let lo ← pyFloat (← getItem point "longitude")
    let altitude := feet_to_meters (← pyFloat (← getItem point "altitude_msl"))
    let en := utmProj la lo
    pure (⟨en.1, en.2, altitude⟩ : Point)) data
  pure ⟨header, pts⟩

/-- MissionDeserializer.__get_airdrop_loc. -/
def MissionDeserializer.get_airdrop_loc (utmProj : ℚ → ℚ → ℚ × ℚ) (now : ℚ)
    (data : JValue) (frame : String) : Py PointStamped := do
  let la ← pyFloat (← getItem data "latitude")
  let lo ← pyFloat (← getItem data "longitude")
  let en := utmProj la lo
  pure ⟨⟨now, frame⟩, ⟨en.1, en.2, 0⟩⟩

/-- MissionDeserializer.__get_offaxis_targ. -/
def MissionDeserializer.get_offaxis_targ (utmProj : ℚ → ℚ → ℚ × ℚ) (now : ℚ)
    (data : JValue) (frame : String) : Py PointStamped := do
  let la ← pyFloat (← getItem data "latitude")
  let lo ← pyFloat (← getItem data "longitude")
  let en := utmProj la lo
  pure ⟨⟨now, frame⟩, ⟨en.1, en.2, 0⟩⟩

/-- MissionDeserializer.__emergent_object. -/
def MissionDeserializer.emergent_object (utmProj : ℚ → ℚ → ℚ × ℚ) (now : ℚ)
    (data : JValue) (frame : String) : Py PointStamped := do
  let la ← pyFloat (← getItem data "latitude")
  let lo ← pyFloat (← getItem data "longitude")
  let en := utmProj la lo
  pure ⟨⟨now, frame⟩, ⟨en.1, en.2, 0⟩⟩

abbrev MissionTuple :=
  FlyZoneArray × PolygonStamped × Marker × PointStamped × PointStamped × PointStamped

/-- MissionDeserializer.from_dict: the six required fields are looked up and
deserialized in source order; any missing field raises KeyError. -/
def MissionDeserializer.from_dict (utmProj : ℚ → ℚ → ℚ × ℚ) (now : ℚ)
    (data : JValue) (frame : String) : Py MissionTuple := do
  let flyzones ← MissionDeserializer.get_flyzone utmProj now
    (← asArray (← getItem data "fly_zones")) frame
  let search_grid ← MissionDeserializer.get_search_grid utmProj now
    (← asArray (← getItem data "search_grid_points")) frame
  let waypoints ← MissionDeserializer.get_waypoints utmProj now
    (← asArray (← getItem data "mission_waypoints")) frame
  let air_drop_pos ← MissionDeserializer.get_airdrop_loc utmProj now
    (← getItem data "air_drop_pos") frame
  let off_axis_targ ← MissionDeserializer.get_offaxis_targ utmProj now
    (← getItem data "off_axis_target_pos") frame
  let emergent_obj ← MissionDeserializer.emergent_object utmProj now
    (← getItem data "emergent_last_known_pos") frame
  pure (flyzones, search_grid, waypoints, air_drop_pos, off_axis_targ, emergent_obj)

/-! ### ObstaclesDeserializer (serializers.py lines 307-389) -/

/-- McGill Robotics red. -/
def OBSTACLE_COLOR : ColorRGBA := ⟨218 / 255, 41 / 255, 28 / 255, 1⟩

/-- One moving obstacle: a sphere marker whose scale is the converted
sphere_radius in all three axes and whose position z is the converted
altitude. -/
def ObstaclesDeserializer.movingMarker (utmProj : ℚ → ℚ → ℚ × ℚ)
    (header : Header) (lifetime : ℚ) (obj : JValue) : Py Marker := do
  let radius := feet_to_meters (← pyFloat (← getItem obj "sphere_radius"))
  let la ← pyFloat (← getItem obj "latitude")
  let lo ← pyFloat (← getItem obj "longitude")
  let en := utmProj la lo
  let alt := feet_to_meters (← pyFloat (← getItem obj "altitude_msl"))
  pure ⟨header, "moving_obstacles", .sphere, lifetime, OBSTACLE_COLOR,
        ⟨radius, radius, radius⟩, ⟨en.1, en.2, alt⟩, 0, []⟩

/-- One stationary obstacle: a cylinder marker; scale x and y are the converted
cylinder_radius, scale z the converted cylinder_height, and position z is half
the converted height. -/
def ObstaclesDeserializer.stationaryMarker (utmProj : ℚ → ℚ → ℚ × ℚ)
    (header : Header) (lifetime : ℚ) (obj : JValue) : Py Marker := do
  let radius := feet_to_meters (← pyFloat (← getItem obj "cylinder_radius"))
  let height := feet_to_meters (← pyFloat (← getItem obj "cylinder_height"))
  let la ← pyFloat (← getItem obj "latitude")
  let lo ← pyFloat (← getItem obj "longitude")
  let en := utmProj la lo
  pure ⟨header, "stationary_obstacles", .cylinder, lifetime, OBSTACLE_COLOR,
        ⟨radius, radius, height⟩, ⟨en.1, en.2, height / 2⟩, 0, []⟩

/-- ObstaclesDeserializer.from_dict: each of the two obstacle keys is guarded
by a membership test, so a missing key contributes an empty MarkerArray. -/
def ObstaclesDeserializer.from_dict (utmProj : ℚ → ℚ → ℚ × ℚ) (now : ℚ)
    (data : JValue) (frame : String) (lifetime : ℚ) :
    Py (List Marker × List Marker) := do
  let header : Header := ⟨now, frame⟩
  let moving_obstacles ←
    match jget? data "moving_obstacles" with
    | none => pure []
    | some v => do
      let objs ← asArray v
      mapE (ObstaclesDeserializer.movingMarker utmProj header lifetime) objs
  let stationary_obstacles ←
    match jget? data "stationary_obstacles" with
    | none => pure []
    | some v => do
      let objs ← asArray v
      mapE (ObstaclesDeserializer.stationaryMarker utmProj header lifetime) objs
  pure (moving_obstacles, stationary_obstacles)

/-! ### Client resource methods (client.py lines 238-294) -/

/-- InteroperabilityClient.get_active_mission, after the HTTP layer has
produced the decoded mission list: scan in server order, deserialize the first
record whose "active" field is truthy, raise LookupError when the scan falls
through. -/
def get_active_mission (utmProj : ℚ → ℚ → ℚ × ℚ) (now : ℚ)
    (missions : List JValue) (frame : String) : Py MissionTuple :=
  match missions with
  | [] => .error .lookupError
  | m :: rest => do
    let a ← getItem m "active"
    if truthy a then MissionDeserializer.from_dict utmProj now m frame
    else get_active_mission utmProj now rest frame

/-- Insertion into a Python dict: overwriting an existing key keeps its
position, a new key is appended. -/
def dictInsert (d : List (JValue × JValue)) (k v : JValue) :
    List (JValue × JValue) :=
  if d.any (fun p => decide (p.1 = k)) then
    d.map (fun p => if p.1 = k then (p.1, v) else p)
  else
    d ++ [(k, v)]

/-- Python dict lookup. -/
def jlookup (d : List (JValue × JValue)) (k : JValue) : Option JValue :=
  match d with
  | [] => none
  | p :: rest => if p.1 = k then some p.2 else jlookup rest k

/-- The dict comprehension `{t["id"]: t for t in response.json()}` as a loop
from an accumulator dict: look up each record's "id" (KeyError when absent)
and insert. -/
def get_all_targets_loop :
    List JValue → List (JValue × JValue) → Py (List (JValue × JValue))
  | [], d => .ok d
  | t :: rest, d => do
    let i ← getItem t "id"
    get_all_targets_loop rest (dictInsert d i t)

/-- InteroperabilityClient.get_all_targets, after the HTTP layer has produced
the decoded target list: the dict comprehension over the list, keyed by each
record's "id", starting from the empty dict. -/
def get_all_targets (resp : List JValue) : Py (List (JValue × JValue)) :=
  get_all_targets_loop resp []

/-! ### TargetSerializer (serializers.py lines 415-472)

The Target message class itself comes from `interop.msg`, whose generated
message definitions are not part of the two source files; only the closed set
of enumeration wrapper types (Color, Orientation, Shape, TargetType) appears in
the serializer. -/

/-- Modelled from the spec: the enumeration message categories of the Target
schema.  The repository's `interop/msg` definitions are not under src; the
spec fixes exactly this closed set of categorical wrapper types. -/
inductive EnumKind where
  | color
  | orientation
  | shape
  | targetType
deriving DecidableEq

/-- A scalar wire-facing ROS value: string, float, int or bool. -/
inductive Scalar where
  | s (v : String)
  | f (v : ℚ)
  | i (v : Int)
  | b (v : Bool)
deriving DecidableEq

/-- A value stored in a Target message slot: either a plain scalar or an
enumeration wrapper message whose `data` slot holds the underlying scalar. -/
inductive DomainValue where
  | scalar (v : Scalar)
  | enum (k : EnumKind) (data : Scalar)
deriving DecidableEq

inductive ScalarKind where
  | sstr
  | sfloat
  | sint
  | sbool
deriving DecidableEq

/-- Modelled from the spec: the declared type of a Target schema field —
"strings, numbers, enumerated categorical values".  The concrete field list of
`interop/msg/Target.msg` is absent from src, so the development quantifies over
schemas; a schema is a list of slot names paired with declared types, mirroring
`msg.__slots__`. -/
inductive FieldType where
  | scalarTy (k : ScalarKind)
  | enumTy (k : EnumKind)
deriving DecidableEq

/-- The JSON value a ROS scalar turns into when placed in the wire dict. -/
def scalarToJ : Scalar → JValue
  | .s v => .str v
  | .f v => .num v
  | .i v => .num (v : ℚ)
  | .b v => .bool v

/-- TargetSerializer.from_msg treatment of one slot value: an enumeration
wrapper contributes its `data` slot, everything else is copied by value. -/
def unwrapValue : DomainValue → JValue
  | .scalar v => scalarToJ v
  | .enum _ d => scalarToJ d

/-- TargetSerializer.from_msg: one wire entry per slot, in slot order. -/
def TargetSerializer.from_msg (msg : List (String × DomainValue)) :
    List (String × JValue) :=
  msg.map (fun p => (p.1, unwrapValue p.2))

/-- Lookup in the wire dictionary (`attribute in data` plus
`data[attribute]`). -/
def lookupStr : List (String × JValue) → String → Option JValue
  | [], _ => none
  | p :: rest, k => if p.1 = k then some p.2 else lookupStr rest k

/-- Wrapping a raw wire value into an enumeration wrapper's `data` slot, as
the wrapper constructor `attribute_type(value)` does. -/
def jToScalar : JValue → Py Scalar
  | .str s => .ok (.s s)
  | .num q => .ok (.f q)
  | .bool b => .ok (.b b)
  | _ => .error .typeError

/-- `attribute_type(value)`: convert an incoming wire value to the slot's
declared domain type. -/
def castValue : FieldType → JValue → Py DomainValue
  | .scalarTy .sstr, v => (pyStrCast v).map (fun s => .scalar (.s s))
  | .scalarTy .sfloat, v => (pyFloat v).map (fun q => .scalar (.f q))
  | .scalarTy .sint, v => (pyInt v).map (fun n => .scalar (.i n))
  | .scalarTy .sbool, v => .ok (.scalar (.b (truthy v)))
  | .enumTy k, v => (jToScalar v).map (fun s => .enum k s)

/-- The default a freshly constructed message slot holds: empty string, zero,
false; enumeration wrappers default to an empty string `data` slot. -/
def defaultValue : FieldType → DomainValue
  | .scalarTy .sstr => .scalar (.s "")
  | .scalarTy .sfloat => .scalar (.f 0)
  | .scalarTy .sint => .scalar (.i 0)
  | .scalarTy .sbool => .scalar (.b false)
  | .enumTy k => .enum k (.s "")

/-- The value one slot ends at after TargetSerializer.from_dict: missing key
or null value leaves the default, anything else is converted. -/
def fieldResult (ft : FieldType) (data : List (String × JValue)) (n : String) :
    Py DomainValue :=
  match lookupStr data n with
  | none => .ok (defaultValue ft)
  | some v => if v = .null then .ok (defaultValue ft) else castValue ft v

/-- TargetSerializer.from_dict over a schema (the slot list of the Target
message): the loop over `msg.__slots__`, leaving each slot at the result
`fieldResult` gives it. -/
def TargetSerializer.from_dict : List (String × FieldType) →
    List (String × JValue) → Py (List (String × DomainValue))
  | [], _ => .ok []
  | s :: sch, data => do
    let dv ← fieldResult s.2 data s.1
    let rest ← TargetSerializer.from_dict sch data
    pure ((s.1, dv) :: rest)

/-- A slot value is well typed for its declared field type.  Enumeration
wrapper `data` slots never hold a raw int in a well-typed message (ROS ints
serialize as JSON numbers, which wrap back as floats). -/
def wellTypedVal : FieldType → DomainValue → Bool
  | .scalarTy .sstr, .scalar (.s _) => true
  | .scalarTy .sfloat, .scalar (.f _) => true
  | .scalarTy .sint, .scalar (.i _) => true
  | .scalarTy .sbool, .scalar (.b _) => true
  | .enumTy k, .enum k' d =>
    decide (k = k') && (match d with | .i _ => false | _ => true)
  | _, _ => false

/-! ### Concrete fixtures used by the theorems -/

/-- A concrete stand-in for the external `utm.from_latlon` projection. -/
def utmSwap : ℚ → ℚ → ℚ × ℚ := fun la lo => (lo, la)

/-- The six structurally required mission fields, in the order
`MissionDeserializer.from_dict` reads them. -/
def missionRequiredKeys : List String :=
  ["fly_zones", "search_grid_points", "mission_waypoints",
   "air_drop_pos", "off_axis_target_pos", "emergent_last_known_pos"]

/-- A minimal well-formed mission payload. -/
def missionBase : List (String × JValue) :=
  [("fly_zones", jarr []),
   ("search_grid_points", jarr []),
   ("mission_waypoints", jarr []),
   ("air_drop_pos", jobj [("latitude", .num 0), ("longitude", .num 0)]),
   ("off_axis_target_pos", jobj [("latitude", .num 0), ("longitude", .num 0)]),
   ("emergent_last_known_pos", jobj [("latitude", .num 0), ("longitude", .num 0)])]

/-- The minimal mission payload with one required field removed. -/
def missionWithout (k : String) : JValue :=
  jobj (missionBase.filter (fun p => p.1 != k))

/-- An inactive mission record. -/
def missionRecordOne : JValue := jobj [("id", .num 1), ("active", .bool false)]

/-- An active, fully populated mission record. -/
def missionRecordTwo : JValue :=
  jobj (("id", .num 2) :: ("active", .bool true) :: missionBase)

/-- The obstacle payload of the spec's test: one stationary cylinder, no
moving_obstacles key. -/
def obstacleTestData : JValue :=
  jobj [("stationary_obstacles",
    jarr [jobj [("cylinder_radius", .num 10), ("cylinder_height", .num 20),
                ("latitude", .num 0), ("longitude", .num 0),
                ("altitude_msl", .num 0)]])]

/-- Does a target record's "id" field equal `k`. -/
def idIs (t k : JValue) : Bool :=
  match getItem t "id" with
  | .ok v => decide (v = k)
  | .error _ => false

/-- The last record of the list whose "id" equals `k` — the record the dict
comprehension keeps when ids collide. -/
def lastIdRecord (resp : List JValue) (k : JValue) : Option JValue :=
  resp.reverse.find? (fun t => idIs t k)

/-- Two target records sharing id 7. -/
def targA : JValue := jobj [("id", .num 7), ("v", .num 1)]

/-- Two target records sharing id 7, later one. -/
def targB : JValue := jobj [("id", .num 7), ("v", .num 2)]

/-- An example Target schema of each field kind; the real schema is absent
from src, and the round-trip theorems quantify over all schemas. -/
def rtSchemaEx : List (String × FieldType) :=
  [("type", .enumTy .targetType), ("latitude", .scalarTy .sfloat),
   ("alphanumeric", .scalarTy .sstr), ("autonomous", .scalarTy .sbool),
   ("id", .scalarTy .sint)]

/-- A well-typed message for `rtSchemaEx`. -/
def rtMsgEx : List (String × DomainValue) :=
  [("type", .enum .targetType (.s "standard")), ("latitude", .scalar (.f 38)),
   ("alphanumeric", .scalar (.s "A")), ("autonomous", .scalar (.b false)),
   ("id", .scalar (.i 3))]

/-- A two-field schema for the permissive-deserialization witness. -/
def pdSchemaEx : List (String × FieldType) :=
  [("alphanumeric", .scalarTy .sstr), ("orientation", .enumTy .orientation)]

/-- Wire data for `pdSchemaEx` with one declared field, one unknown key and
one declared field missing. -/
def pdDataEx : List (String × JValue) :=
  [("alphanumeric", .str "A"), ("junk", .num 5)]

/-- The message `pdSchemaEx`/`pdDataEx` deserializes to. -/
def pdMsgEx : List (String × DomainValue) :=
  [("alphanumeric", .scalar (.s "A")),
   ("orientation", .enum .orientation (.s ""))]

/-! ### Theorems -/

/-- Bind on an ok value in the Python-exception monad. -/
@[simp] theorem Py.bind_ok {α β : Type} (a : α) (f : α → Py β) :
    (Except.ok a : Py α) >>= f = f a := rfl

/-- Bind on a raised exception in the Python-exception monad. -/
@[simp] theorem Py.bind_error {α β : Type} (e : PyErr) (f : α → Py β) :
    (Except.error e : Py α) >>= f = (Except.error e : Py β) := rfl

/-- Pure in the Python-exception monad is ok. -/
@[simp] theorem Py.pure_eq {α : Type} (a : α) :
    (pure a : Py α) = Except.ok a := rfl

/-- Inversion of a successful bind. -/
theorem Py.bind_eq_ok {α β : Type} {x : Py α} {f : α → Py β} {r : β}
    (h : x >>= f = .ok r) : ∃ a, x = .ok a ∧ f a = .ok r := by
  cases x with
  | error e => simp at h
  | ok a => exact ⟨a, rfl, h⟩

/-- A successful subscript implies the key is present. -/
theorem getItem_ok_jget {v : JValue} {k : String} {x : JValue}
    (h : getItem v k = .ok x) : jget? v k = some x := by
  cases v with
  | obj fs =>
    simp only [getItem, jget?] at h ⊢
    cases hf : fs.find? k with
    | none => rw [hf] at h; simp at h
    | some y => rw [hf] at h; simp only [Except.ok.injEq] at h; exact congrArg some h
  | null => simp [getItem] at h
  | bool b => simp [getItem] at h
  | num q => simp [getItem] at h
  | str s => simp [getItem] at h
  | arr xs => simp [getItem] at h

/-- C7: `feet_to_meters ft` equals `ft * 0.3048`, `meters_to_feet m` equals
`m / 0.3048`, and the round-trip `meters_to_feet (feet_to_meters x) = x` holds
exactly for every rational `x` (the model of every finite float). -/
theorem feet_meters_roundtrip :
    (∀ x : ℚ, meters_to_feet (feet_to_meters x) = x) ∧
    (∀ ft : ℚ, feet_to_meters ft = ft * 0.3048) ∧
    (∀ m : ℚ, meters_to_feet m = m / 0.3048) := by
  refine ⟨fun x => ?_, fun _ => rfl, fun _ => rfl⟩
  unfold meters_to_feet feet_to_meters
  field_simp

/-- C6: parsing "2020-01-01T00:00:00Z" yields epoch seconds 1577836800 with
nanosecond remainder 0; a string with no explicit UTC offset parses exactly as
the same instant with a zero (UTC) offset; and the nanosecond remainder always
equals the parsed microsecond fraction times 1000, so sub-microsecond
precision is always zero. -/
theorem iso8601_parsing :
    iso8601_to_rostime ⟨epochMicros 2020 1 1 0 0 0 0, some 0⟩ =
      ⟨1577836800, 0⟩ ∧
    (∀ lm : Int,
      iso8601_to_rostime ⟨lm, none⟩ = iso8601_to_rostime ⟨lm, some 0⟩) ∧
    (∀ t : ParsedDatetime,
      (iso8601_to_rostime t).nsecs = t.localMicros % 1000000 * 1000 ∧
      (iso8601_to_rostime t).nsecs % 1000 = 0) := by
  refine ⟨by decide, fun lm => rfl, fun t => ?_⟩
  obtain ⟨lm, off⟩ := t
  cases off with
  | none =>
    simp only [iso8601_to_rostime]
    constructor
    · omega
    · omega
  | some o =>
    by_cases ho : o = 0 <;> simp only [iso8601_to_rostime, ho, if_true, if_false] <;>
      constructor <;> omega

/-- C1: with the cancellation signal never firing, whenever the request loop
finishes with a returned response that response is not FORBIDDEN; each
FORBIDDEN response makes the loop discard the session (creating a fresh one),
log in again and resend the same request; and on a server stub that answers
FORBIDDEN then 200, the call returns the 200 response having invoked login
exactly once more than a directly successful call does. -/
theorem execute_forbidden_retry
    (sh : Nat → Bool) (sv : Nat → Nat) (fuel i logins sessions : Nat)
    (last : Option Nat) (s L S : Nat)
    (hsh : ∀ j, sh j = false)
    (hret : requestStep sh sv fuel i logins sessions last =
      some (ReqOutcome.returned s L S)) :
    s ≠ FORBIDDEN ∧
    (∀ fuel2 i2 l2 se2 last2, sh i2 = false → sv i2 = FORBIDDEN →
      requestStep sh sv (fuel2 + 1) i2 l2 se2 last2 =
        requestStep sh sv fuel2 (i2 + 1) (l2 + 1) (se2 + 1) (some (sv i2))) ∧
    requestStep noShutdown stubForbiddenThenOk 2 0 0 0 none =
      some (ReqOutcome.returned 200 1 1) ∧
    requestStep noShutdown alwaysOk 1 0 0 0 none =
      some (ReqOutcome.returned 200 0 0) := by
  refine ⟨?_, ?_, by decide, by decide⟩
  · induction fuel generalizing i logins sessions last with
    | zero => simp [requestStep] at hret
    | succ n ih =>
      simp only [requestStep, hsh i, if_false, Bool.false_eq_true] at hret
      by_cases h1 : sv i = FORBIDDEN
      · rw [if_pos h1] at hret
        exact ih _ _ _ _ hret
      · rw [if_neg h1] at hret
        by_cases h2 : 400 ≤ sv i ∧ sv i < 600
        · rw [if_pos h2] at hret
          simp at hret
        · rw [if_neg h2] at hret
          simp only [Option.some.injEq, ReqOutcome.returned.injEq] at hret
          obtain ⟨rfl, -, -⟩ := hret
          exact h1
  · intro fuel2 i2 l2 se2 last2 h1 h2
    simp [requestStep, h1, h2]

/-- Instantiation of the C1 theorem on the FORBIDDEN-then-200 stub with no
cancellation: the returned status 200 is not FORBIDDEN. -/
theorem execute_forbidden_retry_witness : (200 : Nat) ≠ FORBIDDEN :=
  (execute_forbidden_retry noShutdown stubForbiddenThenOk 2 0 0 0 none 200 1 1
    (fun _ => rfl) (by decide)).1

/-- C2 counterexample: with a server that always answers FORBIDDEN and the
cancellation signal firing from the second loop iteration on, the call does
not abort without a result — it executes `return response` and hands the
caller the FORBIDDEN response itself (after one reauthentication). -/
theorem execute_cancellation_surfaces_forbidden :
    requestStep shutdownAfterOne alwaysForbidden 2 0 0 0 none =
      some (ReqOutcome.returned FORBIDDEN 1 1) := by decide

/-- C2 (amended): when the cancellation signal is observed at the top of a
loop iteration the loop terminates immediately, sending no further request;
the call then raises an unbound-variable error if no request had been sent
yet, and otherwise returns the last response received — the FORBIDDEN
response itself when cancellation interrupts the reauthentication loop. -/
theorem execute_cancellation_stops_loop
    (sh : Nat → Bool) (sv : Nat → Nat) (fuel i logins sessions : Nat)
    (last : Option Nat) (hsh : sh i = true) :
    requestStep sh sv (fuel + 1) i logins sessions last =
      some (match last with
            | none => ReqOutcome.unboundResponse
            | some s => ReqOutcome.returned s logins sessions) := by
  simp [requestStep, hsh]

/-- Instantiation of the amended C2 theorem at a concrete cancelled state. -/
theorem execute_cancellation_stops_loop_witness :
    requestStep shutdownAfterOne alwaysForbidden 1 1 1 1 (some FORBIDDEN) =
      some (ReqOutcome.returned FORBIDDEN 1 1) :=
  execute_cancellation_stops_loop shutdownAfterOne alwaysForbidden 0 1 1 1
    (some FORBIDDEN) (by decide)

/-- C4: ObstaclesDeserializer.from_dict treats both obstacle keys as optional
— a dictionary with neither key deserializes to two empty collections, and
whenever the call succeeds a missing key accounts for an empty collection for
its category; every successfully deserialized stationary entry is a cylinder
marker whose scale is the feet-to-meters converted radius and height and whose
position z is half the converted height; on the spec's concrete payload the
moving collection is empty and the single stationary marker has projected z
equal to half the converted height, 3.048 meters. -/
theorem obstacles_from_dict_optional_keys :
    (∀ (u : ℚ → ℚ → ℚ × ℚ) (now lifetime : ℚ) (frame : String) (data : JValue),
      jget? data "moving_obstacles" = none →
      jget? data "stationary_obstacles" = none →
      ObstaclesDeserializer.from_dict u now data frame lifetime = .ok ([], [])) ∧
    (∀ (u : ℚ → ℚ → ℚ × ℚ) (now lifetime : ℚ) (frame : String) (data : JValue)
        (mov stat : List Marker),
      ObstaclesDeserializer.from_dict u now data frame lifetime = .ok (mov, stat) →
      (jget? data "moving_obstacles" = none → mov = []) ∧
      (jget? data "stationary_obstacles" = none → stat = [])) ∧
    (∀ (u : ℚ → ℚ → ℚ × ℚ) (header : Header) (lifetime : ℚ) (entry : JValue)
        (mk : Marker),
      ObstaclesDeserializer.stationaryMarker u header lifetime entry = .ok mk →
      ∃ vr vh r hgt,
        getItem entry "cylinder_radius" = .ok vr ∧ pyFloat vr = .ok r ∧
        getItem entry "cylinder_height" = .ok vh ∧ pyFloat vh = .ok hgt ∧
        mk.type = MarkerType.cylinder ∧
        mk.scale = ⟨feet_to_meters r, feet_to_meters r, feet_to_meters hgt⟩ ∧
        mk.position.z = feet_to_meters hgt / 2) ∧
    (ObstaclesDeserializer.from_dict utmSwap 0 obstacleTestData "map" 1 =
      .ok ([], [⟨⟨0, "map"⟩, "stationary_obstacles", .cylinder, 1, OBSTACLE_COLOR,
        ⟨feet_to_meters 10, feet_to_meters 10, feet_to_meters 20⟩,
        ⟨0, 0, feet_to_meters 20 / 2⟩, 0, []⟩]) ∧
      feet_to_meters 20 / 2 = 3.048) := by
  refine ⟨?_, ?_, ?_, rfl, by norm_num [feet_to_meters]⟩
  · intro u now lifetime frame data h1 h2
    simp only [ObstaclesDeserializer.from_dict, h1, h2, Py.pure_eq, Py.bind_ok]
  · intro u now lifetime frame data mov stat hfd
    constructor
    · intro hnone
      simp only [ObstaclesDeserializer.from_dict, hnone, Py.pure_eq, Py.bind_ok] at hfd
      cases hst : jget? data "stationary_obstacles" with
      | none =>
        rw [hst] at hfd
        simp only [Except.ok.injEq, Prod.mk.injEq] at hfd
        exact hfd.1.symm
      | some v =>
        rw [hst] at hfd
        obtain ⟨objs, -, hfd⟩ := Py.bind_eq_ok hfd
        obtain ⟨ms, -, hfd⟩ := Py.bind_eq_ok hfd
        simp only [Py.pure_eq, Except.ok.injEq, Prod.mk.injEq] at hfd
        exact hfd.1.symm
    · intro hnone
      simp only [ObstaclesDeserializer.from_dict, hnone, Py.pure_eq, Py.bind_ok] at hfd
      cases hmv : jget? data "moving_obstacles" with
      | none =>
        rw [hmv] at hfd
        simp only [Except.ok.injEq, Prod.mk.injEq] at hfd
        exact hfd.2.symm
      | some v =>
        rw [hmv] at hfd
        obtain ⟨objs, -, hfd⟩ := Py.bind_eq_ok hfd
        obtain ⟨ms, -, hfd⟩ := Py.bind_eq_ok hfd
        simp only [Py.pure_eq, Except.ok.injEq, Prod.mk.injEq] at hfd
        exact hfd.2.symm
  · intro u header lifetime entry mk h
    unfold ObstaclesDeserializer.stationaryMarker at h
    obtain ⟨vr, h1, h⟩ := Py.bind_eq_ok h
    obtain ⟨r, h2, h⟩ := Py.bind_eq_ok h
    obtain ⟨vh, h3, h⟩ := Py.bind_eq_ok h
    obtain ⟨hgt, h4, h⟩ := Py.bind_eq_ok h
    obtain ⟨vla, h5, h⟩ := Py.bind_eq_ok h
    obtain ⟨la, h6, h⟩ := Py.bind_eq_ok h
    obtain ⟨vlo, h7, h⟩ := Py.bind_eq_ok h
    obtain ⟨lo, h8, h⟩ := Py.bind_eq_ok h
    simp only [Py.pure_eq, Except.ok.injEq] at h
    subst h
    exact ⟨vr, vh, r, hgt, h1, h2, h3, h4, rfl, rfl, rfl⟩

/-- Instantiation of C4 on the no-obstacle-keys payload: both collections
empty. -/
theorem obstacles_from_dict_optional_keys_witness :
    ObstaclesDeserializer.from_dict utmSwap 0 (jobj []) "map" 1 = .ok ([], []) :=
  obstacles_from_dict_optional_keys.1 utmSwap 0 1 "map" (jobj []) rfl rfl

/-- A successful mission deserialization implies every one of the six
structurally required keys was present in the payload. -/
theorem mission_from_dict_ok_keys {u : ℚ → ℚ → ℚ × ℚ} {now : ℚ} {data : JValue}
    {frame : String} {r : MissionTuple}
    (hfd : MissionDeserializer.from_dict u now data frame = .ok r) :
    ∀ k ∈ missionRequiredKeys, ∃ v, jget? data k = some v := by
  unfold MissionDeserializer.from_dict at hfd
  obtain ⟨v1, h1, hfd⟩ := Py.bind_eq_ok hfd
  obtain ⟨a1, -, hfd⟩ := Py.bind_eq_ok hfd
  obtain ⟨z1, -, hfd⟩ := Py.bind_eq_ok hfd
  obtain ⟨v2, h2, hfd⟩ := Py.bind_eq_ok hfd
  obtain ⟨a2, -, hfd⟩ := Py.bind_eq_ok hfd
  obtain ⟨z2, -, hfd⟩ := Py.bind_eq_ok hfd
  obtain ⟨v3, h3, hfd⟩ := Py.bind_eq_ok hfd
  obtain ⟨a3, -, hfd⟩ := Py.bind_eq_ok hfd
  obtain ⟨z3, -, hfd⟩ := Py.bind_eq_ok hfd
  obtain ⟨v4, h4, hfd⟩ := Py.bind_eq_ok hfd
  obtain ⟨z4, -, hfd⟩ := Py.bind_eq_ok hfd
  obtain ⟨v5, h5, hfd⟩ := Py.bind_eq_ok hfd
  obtain ⟨z5, -, hfd⟩ := Py.bind_eq_ok hfd
  obtain ⟨v6, h6, hfd⟩ := Py.bind_eq_ok hfd
  intro k hk
  simp only [missionRequiredKeys, List.mem_cons, List.not_mem_nil, or_false] at hk
  rcases hk with rfl | rfl | rfl | rfl | rfl | rfl
  · exact ⟨v1, getItem_ok_jget h1⟩
  · exact ⟨v2, getItem_ok_jget h2⟩
  · exact ⟨v3, getItem_ok_jget h3⟩
  · exact ⟨v4, getItem_ok_jget h4⟩
  · exact ⟨v5, getItem_ok_jget h5⟩
  · exact ⟨v6, getItem_ok_jget h6⟩

/-- C9: a mission dictionary missing any one of the six structurally required
fields never deserializes to a (partial) result, and on the minimal payload
with exactly one field removed the failure is the KeyError naming that
field. -/
theorem mission_missing_field_fails :
    (∀ (u : ℚ → ℚ → ℚ × ℚ) (now : ℚ) (data : JValue) (frame : String)
        (k : String),
      k ∈ missionRequiredKeys → jget? data k = none →
      ∃ e, MissionDeserializer.from_dict u now data frame = .error e) ∧
    MissionDeserializer.from_dict utmSwap 0 (missionWithout "fly_zones") "map" =
      .error (.keyError "fly_zones") ∧
    MissionDeserializer.from_dict utmSwap 0 (missionWithout "search_grid_points") "map" =
      .error (.keyError "search_grid_points") ∧
    MissionDeserializer.from_dict utmSwap 0 (missionWithout "mission_waypoints") "map" =
      .error (.keyError "mission_waypoints") ∧
    MissionDeserializer.from_dict utmSwap 0 (missionWithout "air_drop_pos") "map" =
      .error (.keyError "air_drop_pos") ∧
    MissionDeserializer.from_dict utmSwap 0 (missionWithout "off_axis_target_pos") "map" =
      .error (.keyError "off_axis_target_pos") ∧
    MissionDeserializer.from_dict utmSwap 0 (missionWithout "emergent_last_known_pos") "map" =
      .error (.keyError "emergent_last_known_pos") := by
  refine ⟨?_, rfl, rfl, rfl, rfl, rfl, rfl⟩
  intro u now data frame k hk hnone
  cases hfd : MissionDeserializer.from_dict u now data frame with
  | error e => exact ⟨e, rfl⟩
  | ok r =>
    exfalso
    obtain ⟨v, hv⟩ := mission_from_dict_ok_keys hfd k hk
    rw [hnone] at hv
    simp at hv

/-- Instantiation of C9 on the empty mission dictionary. -/
theorem mission_missing_field_fails_witness :
    ∃ e, MissionDeserializer.from_dict utmSwap 0 (jobj []) "map" = .error e :=
  mission_missing_field_fails.1 utmSwap 0 (jobj []) "map" "fly_zones"
    (by simp [missionRequiredKeys]) rfl

/-- C3: get_active_mission scans the mission list in server order and returns
the deserialization of the first record whose active field is truthy; when
every record's active field is present and falsy the scan raises LookupError.
On the concrete list of an inactive record with id 1 followed by an active
record with id 2 it returns the deserialization of the id-2 record, which
succeeds; on a list with no active record it raises LookupError. -/
theorem get_active_mission_first_active :
    (∀ (u : ℚ → ℚ → ℚ × ℚ) (now : ℚ) (frame : String) (pre rest : List JValue)
        (m : JValue),
      (∀ p ∈ pre, ∃ v, getItem p "active" = .ok v ∧ truthy v = false) →
      (∃ v, getItem m "active" = .ok v ∧ truthy v = true) →
      get_active_mission u now (pre ++ m :: rest) frame =
        MissionDeserializer.from_dict u now m frame) ∧
    (∀ (u : ℚ → ℚ → ℚ × ℚ) (now : ℚ) (frame : String) (missions : List JValue),
      (∀ p ∈ missions, ∃ v, getItem p "active" = .ok v ∧ truthy v = false) →
      get_active_mission u now missions frame = .error .lookupError) ∧
    (get_active_mission utmSwap 0 [missionRecordOne, missionRecordTwo] "map" =
      MissionDeserializer.from_dict utmSwap 0 missionRecordTwo "map" ∧
     (∃ r, get_active_mission utmSwap 0 [missionRecordOne, missionRecordTwo] "map" =
        .ok r) ∧
     getItem missionRecordTwo "id" = .ok (.num 2) ∧
     get_active_mission utmSwap 0 [missionRecordOne] "map" =
        .error .lookupError) := by
  refine ⟨?_, ?_, rfl, ⟨_, rfl⟩, rfl, rfl⟩
  · intro u now frame pre rest m hpre hm
    induction pre with
    | nil =>
      obtain ⟨v, hv, ht⟩ := hm
      simp only [List.nil_append, get_active_mission]
      rw [hv]
      simp [ht]
    | cons p pre ih =>
      obtain ⟨v, hv, hf⟩ := hpre p (List.mem_cons_self p pre)
      simp only [List.cons_append, get_active_mission]
      rw [hv]
      simp only [Py.bind_ok, hf, Bool.false_eq_true, if_false]
      exact ih (fun q hq => hpre q (List.mem_cons_of_mem p hq))
  · intro u now frame missions h
    induction missions with
    | nil => simp [get_active_mission]
    | cons p ps ih =>
      obtain ⟨v, hv, hf⟩ := h p (List.mem_cons_self p ps)
      simp only [get_active_mission]
      rw [hv]
      simp only [Py.bind_ok, hf, Bool.false_eq_true, if_false]
      exact ih (fun q hq => h q (List.mem_cons_of_mem p hq))

/-- Instantiation of C3: with the inactive record followed by the fully
populated active record, the scan selects the second record. -/
theorem get_active_mission_first_active_witness :
    get_active_mission utmSwap 0 [missionRecordOne, missionRecordTwo] "map" =
      MissionDeserializer.from_dict utmSwap 0 missionRecordTwo "map" :=
  get_active_mission_first_active.1 utmSwap 0 "map" [missionRecordOne] []
    missionRecordTwo
    (by
      intro p hp
      simp only [List.mem_singleton] at hp
      subst hp
      exact ⟨.bool false, rfl, rfl⟩)
    ⟨.bool true, rfl, rfl⟩

/-- Replacing the value at key `k` leaves lookups at other keys unchanged. -/
theorem jlookup_map_replace_ne {d : List (JValue × JValue)} {k v k' : JValue}
    (hne : k' ≠ k) :
    jlookup (d.map (fun p => if p.1 = k then (p.1, v) else p)) k' =
      jlookup d k' := by
  induction d with
  | nil => rfl
  | cons p rest ih =>
    simp only [List.map_cons]
    by_cases h1 : p.1 = k
    · rw [if_pos h1]
      simp only [jlookup]
      have h2 : ¬p.1 = k' := fun hh => hne (hh.symm.trans h1)
      rw [if_neg h2, if_neg h2]
      exact ih
    · rw [if_neg h1]
      simp only [jlookup]
      by_cases h2 : p.1 = k'
      · rw [if_pos h2, if_pos h2]
      · rw [if_neg h2, if_neg h2]
        exact ih

/-- Looking a key up after a Python dict insertion: the inserted value at that
key, the previous dict elsewhere. -/
theorem jlookup_dictInsert (d : List (JValue × JValue)) (k v k' : JValue) :
    jlookup (dictInsert d k v) k' = if k' = k then some v else jlookup d k' := by
  unfold dictInsert
  by_cases hmem : d.any (fun p => decide (p.1 = k)) = true
  · rw [if_pos hmem]
    by_cases he : k' = k
    · subst he
      rw [if_pos rfl]
      induction d with
      | nil => simp at hmem
      | cons p rest ih =>
        simp only [List.any_cons, Bool.or_eq_true, decide_eq_true_eq] at hmem
        simp only [List.map_cons]
        by_cases h1 : p.1 = k'
        · rw [if_pos h1]
          simp only [jlookup]
          rw [if_pos h1]
        · rw [if_neg h1]
          simp only [jlookup]
          rw [if_neg h1]
          rcases hmem with h | h
          · exact absurd h h1
          · exact ih h
    · rw [if_neg he]
      exact jlookup_map_replace_ne he
  · rw [if_neg hmem]
    induction d with
    | nil =>
      simp only [List.nil_append, jlookup]
      by_cases h : k = k'
      · rw [if_pos h, if_pos h.symm]
      · rw [if_neg h, if_neg (fun hh => h hh.symm)]
    | cons p rest ih =>
      simp only [List.any_cons, Bool.or_eq_true, decide_eq_true_eq, not_or] at hmem
      simp only [List.cons_append, jlookup]
      by_cases h2 : p.1 = k'
      · rw [if_pos h2]
        have : ¬k' = k := fun hh => hmem.1 (h2.trans hh)
        rw [if_neg this]
        rw [if_pos h2]
      · rw [if_neg h2]
        have := ih (by simpa using hmem.2)
        simpa [h2] using this

/-- The dict-building loop realizes last-record-wins lookup relative to its
accumulator. -/
theorem get_all_targets_loop_lookup :
    ∀ (resp : List JValue) (d d' : List (JValue × JValue)),
      get_all_targets_loop resp d = .ok d' →
      ∀ k, jlookup d' k = (lastIdRecord resp k).or (jlookup d k) := by
  intro resp
  induction resp with
  | nil =>
    intro d d' h k
    simp only [get_all_targets_loop, Except.ok.injEq] at h
    subst h
    rfl
  | cons t rest ih =>
    intro d d' h k
    simp only [get_all_targets_loop] at h
    obtain ⟨i, hi, h⟩ := Py.bind_eq_ok h
    have hk := ih _ _ h k
    rw [jlookup_dictInsert] at hk
    rw [hk]
    have hlast : lastIdRecord (t :: rest) k =
        (lastIdRecord rest k).or (if idIs t k then some t else none) := by
      simp only [lastIdRecord, List.reverse_cons, List.find?_append]
      congr 1
      simp only [List.find?]
      cases idIs t k <;> rfl
    rw [hlast]
    have hidis : idIs t k = decide (i = k) := by simp [idIs, hi]
    rw [hidis]
    cases hL : lastIdRecord rest k with
    | some x => rfl
    | none =>
      by_cases hik : i = k
      · subst hik
        simp
      · have hki : ¬k = i := fun hh => hik hh.symm
        simp [hik, hki]

/-- If some record of the list lacks an "id" key, the dict comprehension
raises instead of producing a dict. -/
theorem get_all_targets_loop_missing_id :
    ∀ (resp : List JValue) (d : List (JValue × JValue)) (t : JValue),
      t ∈ resp → getItem t "id" = .error (.keyError "id") →
      ∃ e, get_all_targets_loop resp d = .error e := by
  intro resp
  induction resp with
  | nil =>
    intro d t ht
    simp at ht
  | cons t0 rest ih =>
    intro d t ht herr
    cases h0 : getItem t0 "id" with
    | error e =>
      refine ⟨e, ?_⟩
      simp only [get_all_targets_loop]
      rw [h0]
      rfl
    | ok i =>
      rcases List.mem_cons.mp ht with rfl | htl
      · rw [h0] at herr
        simp at herr
      · obtain ⟨e, he⟩ := ih (dictInsert d i t0) t htl herr
        refine ⟨e, ?_⟩
        simp only [get_all_targets_loop]
        rw [h0, Py.bind_ok]
        exact he

/-- C10: get_all_targets builds a mapping keyed by each record's id in which,
when several records share an id, lookups see the record appearing last in the
server list; a record lacking an id key makes the call raise, concretely with
KeyError "id"; and on two records sharing id 7 the resulting dict holds only
the later record. -/
theorem get_all_targets_by_id :
    (∀ (resp : List JValue) (d : List (JValue × JValue)),
      get_all_targets resp = .ok d →
      ∀ k, jlookup d k = lastIdRecord resp k) ∧
    (∀ (resp : List JValue) (t : JValue), t ∈ resp →
      getItem t "id" = .error (.keyError "id") →
      ∃ e, get_all_targets resp = .error e) ∧
    get_all_targets [jobj [("x", .num 1)]] = .error (.keyError "id") ∧
    get_all_targets [targA, targB] = .ok [(.num 7, targB)] := by
  refine ⟨?_, ?_, rfl, rfl⟩
  · intro resp d h k
    have hres := get_all_targets_loop_lookup resp [] d h k
    rw [hres]
    cases lastIdRecord resp k <;> rfl
  · intro resp t ht herr
    exact get_all_targets_loop_missing_id resp [] t ht herr

/-- Instantiation of C10 on the duplicate-id list: looking id 7 up in the
resulting dict yields the later record. -/
theorem get_all_targets_by_id_witness :
    jlookup [(JValue.num 7, targB)] (JValue.num 7) =
      lastIdRecord [targA, targB] (JValue.num 7) :=
  get_all_targets_by_id.1 [targA, targB] [(JValue.num 7, targB)] rfl (JValue.num 7)

/-- Serialized slot values are never the JSON null. -/
theorem unwrapValue_ne_null (v : DomainValue) : unwrapValue v ≠ JValue.null := by
  cases v with
  | scalar sv => cases sv <;> simp [unwrapValue, scalarToJ]
  | enum k d => cases d <;> simp [unwrapValue, scalarToJ]

/-- Converting the serialized form of a well-typed slot value recovers the
value: enumeration wrappers are rewrapped, scalars are fixed by their casts. -/
theorem castValue_unwrapValue :
    ∀ (ft : FieldType) (v : DomainValue), wellTypedVal ft v = true →
      castValue ft (unwrapValue v) = .ok v := by
  intro ft v h
  cases ft with
  | scalarTy sk =>
    cases v with
    | scalar sv =>
      cases sk with
      | sstr => cases sv with
        | s a => rfl
        | f a => simp [wellTypedVal] at h
        | i a => simp [wellTypedVal] at h
        | b a => simp [wellTypedVal] at h
      | sfloat => cases sv with
        | f a => rfl
        | s a => simp [wellTypedVal] at h
        | i a => simp [wellTypedVal] at h
        | b a => simp [wellTypedVal] at h
      | sint => cases sv with
        | i n =>
          simp only [unwrapValue, scalarToJ, castValue, pyInt, Except.map]
          split <;> simp
        | s a => simp [wellTypedVal] at h
        | f a => simp [wellTypedVal] at h
        | b a => simp [wellTypedVal] at h
      | sbool => cases sv with
        | b a => rfl
        | s a => simp [wellTypedVal] at h
        | f a => simp [wellTypedVal] at h
        | i a => simp [wellTypedVal] at h
    | enum k d => cases sk <;> simp [wellTypedVal] at h
  | enumTy ek =>
    cases v with
    | scalar sv => simp [wellTypedVal] at h
    | enum k d =>
      simp only [wellTypedVal, Bool.and_eq_true, decide_eq_true_eq] at h
      obtain ⟨rfl, hd⟩ := h
      cases d with
      | s a => rfl
      | f a => rfl
      | b a => rfl
      | i a => simp at hd

/-- A wire-dict entry whose key is not a schema slot name is invisible to
deserialization: unknown extra keys are ignored. -/
theorem from_dict_cons_skip :
    ∀ (schema : List (String × FieldType)) (kk : String) (jv : JValue)
      (data : List (String × JValue)),
      kk ∉ schema.map Prod.fst →
      TargetSerializer.from_dict schema ((kk, jv) :: data) =
        TargetSerializer.from_dict schema data := by
  intro schema
  induction schema with
  | nil => intro kk jv data _; rfl
  | cons s sch ih =>
    intro kk jv data hnot
    simp only [List.map_cons, List.mem_cons, not_or] at hnot
    simp only [TargetSerializer.from_dict]
    have hlook : lookupStr ((kk, jv) :: data) s.1 = lookupStr data s.1 := by
      simp only [lookupStr]
      rw [if_neg hnot.1]
    have hfield : fieldResult s.2 ((kk, jv) :: data) s.1 =
        fieldResult s.2 data s.1 := by
      simp only [fieldResult, hlook]
    rw [hfield, ih kk jv data hnot.2]

/-- C5: for every schema and every message well typed for it with distinct
slot names, deserializing the serialized wire dictionary reproduces the
message slot for slot; enumeration-wrapper slots serialize to their underlying
scalar and deserialize by rewrapping it. -/
theorem target_roundtrip :
    (∀ (schema : List (String × FieldType)) (msg : List (String × DomainValue)),
      (schema.map Prod.fst).Nodup →
      List.Forall₂ (fun s m => s.1 = m.1 ∧ wellTypedVal s.2 m.2 = true) schema msg →
      TargetSerializer.from_dict schema (TargetSerializer.from_msg msg) = .ok msg) ∧
    (∀ (n : String) (k : EnumKind) (d : Scalar) (ms : List (String × DomainValue)),
      TargetSerializer.from_msg ((n, .enum k d) :: ms) =
        (n, scalarToJ d) :: TargetSerializer.from_msg ms) ∧
    (∀ (k : EnumKind) (s : String),
      castValue (.enumTy k) (scalarToJ (.s s)) = .ok (.enum k (.s s))) := by
  refine ⟨?_, fun n k d ms => rfl, fun k s => rfl⟩
  intro schema msg hnodup hf
  induction hf with
  | nil => rfl
  | @cons s m sch ms hrel hrest ih =>
    obtain ⟨s1, ft⟩ := s
    obtain ⟨m1, mv⟩ := m
    obtain ⟨hname, hwt⟩ := hrel
    simp only at hname
    subst hname
    simp only [List.map_cons, List.nodup_cons] at hnodup
    simp only [TargetSerializer.from_msg, List.map_cons, TargetSerializer.from_dict]
    have hlook : lookupStr ((s1, unwrapValue mv) ::
        List.map (fun p => (p.1, unwrapValue p.2)) ms) s1 =
        some (unwrapValue mv) := by
      simp [lookupStr]
    have hfield : fieldResult ft ((s1, unwrapValue mv) ::
        List.map (fun p => (p.1, unwrapValue p.2)) ms) s1 = .ok mv := by
      simp only [fieldResult, hlook]
      rw [if_neg (unwrapValue_ne_null mv)]
      exact castValue_unwrapValue ft mv hwt
    rw [hfield, Py.bind_ok]
    have hskip := from_dict_cons_skip sch s1 (unwrapValue mv)
      (TargetSerializer.from_msg ms) hnodup.1
    simp only [TargetSerializer.from_msg] at hskip
    have ih2 := ih hnodup.2
    simp only [TargetSerializer.from_msg] at ih2
    rw [hskip, ih2, Py.bind_ok, Py.pure_eq]

/-- Instantiation of C5 on a five-field schema covering every field kind. -/
theorem target_roundtrip_witness :
    TargetSerializer.from_dict rtSchemaEx (TargetSerializer.from_msg rtMsgEx) =
      .ok rtMsgEx :=
  target_roundtrip.1 rtSchemaEx rtMsgEx (by decide)
    (.cons ⟨rfl, rfl⟩ (.cons ⟨rfl, rfl⟩ (.cons ⟨rfl, rfl⟩
      (.cons ⟨rfl, rfl⟩ (.cons ⟨rfl, rfl⟩ .nil)))))

/-- Inversion of one slot's deserialization result into the three cases of
the permissive contract. -/
theorem fieldResult_ok_cases {ft : FieldType} {data : List (String × JValue)}
    {n : String} {dv : DomainValue} (h : fieldResult ft data n = .ok dv) :
    (lookupStr data n = none → dv = defaultValue ft) ∧
    (lookupStr data n = some .null → dv = defaultValue ft) ∧
    (∀ v, lookupStr data n = some v → v ≠ .null → castValue ft v = .ok dv) := by
  unfold fieldResult at h
  cases hl : lookupStr data n with
  | none =>
    rw [hl] at h
    simp only [Except.ok.injEq] at h
    exact ⟨fun _ => h.symm, fun hc => Option.noConfusion hc,
      fun v hv _ => Option.noConfusion hv⟩
  | some v0 =>
    rw [hl] at h
    by_cases hn : v0 = JValue.null
    · subst hn
      simp only [eq_self_iff_true, if_true, Except.ok.injEq] at h
      refine ⟨fun hc => Option.noConfusion hc, fun _ => h.symm,
        fun v hv hvn => ?_⟩
      injection hv with hv
      exact absurd hv.symm hvn
    · simp only [if_neg hn] at h
      refine ⟨fun hc => Option.noConfusion hc, fun hc => ?_, fun v hv hvn => ?_⟩
      · injection hc with hc
        exact absurd hc hn
      · injection hv with hv
        subst hv
        exact h

/-- C8: whenever Target deserialization succeeds it is permissive — the
result has one slot per schema entry with the declared name; a slot whose key
is missing from the input, or present with a null value, holds the declared
type's default; a slot present with a non-null value holds the converted
value; and entries under keys outside the schema never influence the result
(unknown keys are ignored). -/
theorem target_from_dict_permissive :
    (∀ (schema : List (String × FieldType)) (data : List (String × JValue))
        (msg : List (String × DomainValue)),
      TargetSerializer.from_dict schema data = .ok msg →
      msg.length = schema.length ∧
      ∀ i (hs : i < schema.length) (hm : i < msg.length),
        (msg.get ⟨i, hm⟩).1 = (schema.get ⟨i, hs⟩).1 ∧
        (lookupStr data (schema.get ⟨i, hs⟩).1 = none →
          (msg.get ⟨i, hm⟩).2 = defaultValue (schema.get ⟨i, hs⟩).2) ∧
        (lookupStr data (schema.get ⟨i, hs⟩).1 = some .null →
          (msg.get ⟨i, hm⟩).2 = defaultValue (schema.get ⟨i, hs⟩).2) ∧
        (∀ v, lookupStr data (schema.get ⟨i, hs⟩).1 = some v → v ≠ .null →
          castValue (schema.get ⟨i, hs⟩).2 v = .ok (msg.get ⟨i, hm⟩).2)) ∧
    (∀ (schema : List (String × FieldType)) (kk : String) (jv : JValue)
        (data : List (String × JValue)),
      kk ∉ schema.map Prod.fst →
      TargetSerializer.from_dict schema ((kk, jv) :: data) =
        TargetSerializer.from_dict schema data) := by
  refine ⟨?_, from_dict_cons_skip⟩
  intro schema
  induction schema with
  | nil =>
    intro data msg h
    simp only [TargetSerializer.from_dict, Except.ok.injEq] at h
    subst h
    exact ⟨rfl, fun i hs => absurd hs (Nat.not_lt_zero i)⟩
  | cons s sch ih =>
    intro data msg h
    simp only [TargetSerializer.from_dict] at h
    obtain ⟨dv, hdv, h⟩ := Py.bind_eq_ok h
    obtain ⟨rest, hrest, h⟩ := Py.bind_eq_ok h
    simp only [Py.pure_eq, Except.ok.injEq] at h
    subst h
    obtain ⟨hlen, hfields⟩ := ih data rest hrest
    refine ⟨by simp [hlen], ?_⟩
    intro i hs hm
    cases i with
    | zero =>
      obtain ⟨h1, h2, h3⟩ := fieldResult_ok_cases hdv
      exact ⟨rfl, h1, h2, h3⟩
    | succ j =>
      simp only [List.get_cons_succ]
      exact hfields j (Nat.lt_of_succ_lt_succ hs) (Nat.lt_of_succ_lt_succ hm)

/-- Instantiation of C8 on a concrete schema and wire dict with a present
field, a missing field and an unknown key. -/
theorem target_from_dict_permissive_witness :
    pdMsgEx.length = pdSchemaEx.length :=
  (target_from_dict_permissive.1 pdSchemaEx pdDataEx pdMsgEx rfl).1
